import Mathlib

/-!
Verification development for the PixVault harvesting engine.

Shallow embedding of the retry mechanism (`harvest/utils/retry.py`), the
per-domain rate limiter (`harvest/tasks.py`, class `RateLimiter`), the download
task (`harvest/tasks.py`, `download_image_task`) and the proxy pool
(`harvest/proxy_manager.py`, class `ProxyManager`).

Conventions used throughout:
* Python floats are embedded as `ℚ` (the claims checked here concern orderings
  and signs that are robust under rounding), machine integers as `ℕ`/`ℤ`.
* Randomness (`random.uniform`, `random.choice`, `random.choices`) is embedded
  by passing the drawn value as an explicit oracle argument, constrained to the
  range the library call guarantees.
* Exceptions are embedded with `Except`/an explicit raised-exception component.
-/

namespace PixVault

/-! ### Retry mechanism: `harvest/utils/retry.py` -/

/-- Python exception values that can reach the harvest code.  The `httpx`
hierarchy is modelled by the constructors used in `retry.py`:
`httpx.TimeoutException`, `httpx.ConnectError`, `httpx.NetworkError` and
`httpx.HTTPStatusError` (which carries `response.status_code`); `otherError`
stands for any exception outside those classes (e.g. `ValueError`). -/
inductive HttpxError where
  | timeout
  | connectErr
  | networkErr
  | statusError (statusCode : ℕ)
  | otherError
deriving DecidableEq

/-- The exception *classes* that can appear in a `retryable_exceptions` tuple
of `RetryConfig` (`retry.py` lines 27-32). -/
inductive ExcClass where
  | timeoutException
  | connectError
  | networkError
  | httpStatusError
deriving DecidableEq

/-- `isinstance(e, c)` for the modelled classes.  In `httpx`,
`ConnectError` is a subclass of `NetworkError`, so a connect failure is an
instance of both classes. -/
def isinstanceOf (e : HttpxError) (c : ExcClass) : Bool :=
  match e, c with
  | .timeout, .timeoutException => true
  | .connectErr, .connectError => true
  | .connectErr, .networkError => true
  | .networkErr, .networkError => true
  | .statusError _, .httpStatusError => true
  | _, _ => false

/-- The default `retryable_exceptions` tuple of `RetryConfig.__init__`
(`retry.py` lines 27-32): `(httpx.TimeoutException, httpx.ConnectError,
httpx.NetworkError, httpx.HTTPStatusError)`. -/
def defaultRetryableExceptions : List ExcClass :=
  [.timeoutException, .connectError, .networkError, .httpStatusError]

/-- `RetryConfig` (`retry.py` lines 17-39), with the constructor defaults. -/
structure RetryConfig where
  maxRetries : ℕ := 3
  baseDelay : ℚ := 1
  maxDelay : ℚ := 60
  exponentialBase : ℚ := 2
  jitter : Bool := true
  retryableExceptions : List ExcClass := defaultRetryableExceptions
deriving DecidableEq

/-- The `RetryConfig()` built from all defaults. -/
def defaultRetryConfig : RetryConfig := {}

/-- `is_retryable_error(exception, config)` (`retry.py` lines 42-63):
first an `isinstance` check against `config.retryable_exceptions`, then a
specific check for 5xx `HTTPStatusError`, else `False`. -/
def is_retryable_error (e : HttpxError) (config : RetryConfig) : Bool :=
  if config.retryableExceptions.any (fun c => isinstanceOf e c) then true
  else
    match e with
    | .statusError statusCode =>
        if 500 ≤ statusCode ∧ statusCode < 600 then true else false
    | _ => false

/-- The body of `calculate_delay` before jitter (`retry.py` lines 77-81):
`min(config.base_delay * config.exponential_base ** attempt, config.max_delay)`. -/
def rawDelay (attempt : ℕ) (config : RetryConfig) : ℚ :=
  min (config.baseDelay * config.exponentialBase ^ attempt) config.maxDelay

/-- The set of values `random.uniform(-jitter_range, jitter_range)` can return
when `jitter_range = delay * 0.1` and `delay = rawDelay attempt config`
(`retry.py` lines 84-86).  `random.uniform(a, b)` returns a value between `a`
and `b` whichever order they are in, so the outcome `j` satisfies
`|j| ≤ |delay| / 10`. -/
def jitterOutcome (attempt : ℕ) (config : RetryConfig) (j : ℚ) : Prop :=
  |j| ≤ |rawDelay attempt config| / 10

/-- `calculate_delay(attempt, config)` (`retry.py` lines 66-88) with the drawn
jitter perturbation `j` passed explicitly: exponential delay capped at
`max_delay`, plus jitter when enabled, clamped below by `max(0, delay)`. -/
def calculate_delay (attempt : ℕ) (config : RetryConfig) (j : ℚ) : ℚ :=
  max 0 (if config.jitter then rawDelay attempt config + j else rawDelay attempt config)

/-- Observable outcome of one run of the retry loop: the value returned or the
exception raised, the number of invocations of the wrapped function, and the
number of `time.sleep` calls performed. -/
structure RunResult (E A : Type) where
  result : Except E A
  attempts : ℕ
  sleeps : ℕ

/-- The loop of `retry_with_backoff`'s `wrapper` (`retry.py` lines 127-153),
shared verbatim by `RetryableHTTPClient.get`/`.post` and
`async_retry_with_backoff`: `for attempt in range(max_retries + 1)` tries
`func()`; on an exception it breaks (and finally re-raises the last exception)
when `attempt >= max_retries` or when the exception is not retryable, and
otherwise sleeps and continues.  `f attempt` is the outcome of the attempt
with that 0-based index; `left` counts the loop iterations still available
after the current one, so a call with `left = max_retries` and `attempt = 0`
runs the source loop and `left = 0` is exactly `attempt >= max_retries`. -/
def retryAux {E A : Type} (f : ℕ → Except E A) (p : E → Bool) :
    (left : ℕ) → (attempt : ℕ) → (sleeps : ℕ) → RunResult E A
  | left, attempt, sleeps =>
    match f attempt with
    | .ok a => ⟨.ok a, attempt + 1, sleeps⟩
    | .error e =>
      match left with
      | 0 => ⟨.error e, attempt + 1, sleeps⟩
      | left' + 1 =>
        if p e then retryAux f p left' (attempt + 1) (sleeps + 1)
        else ⟨.error e, attempt + 1, sleeps⟩

/-- `retry_with_backoff(...)` applied to a function and then called
(`retry.py` lines 91-156): runs the retry loop from attempt 0 with the
config's retryable-error classification and budget. -/
def retry_with_backoff {A : Type} (f : ℕ → Except HttpxError A)
    (config : RetryConfig) : RunResult HttpxError A :=
  retryAux f (fun e => is_retryable_error e config) config.maxRetries 0 0

/-- The classification claimed by the spec, stated from the spec's words for
comparison with `is_retryable_error`: retryable iff timeout, connection
failure, a 5xx-equivalent status, or an explicit rate-limited (429) signal. -/
def claimRetryableSpec (e : HttpxError) : Bool :=
  match e with
  | .timeout => true
  | .connectErr => true
  | .networkErr => true
  | .statusError s => if (500 ≤ s ∧ s < 600) ∨ s = 429 then true else false
  | .otherError => false

/-! ### Per-domain rate limiter: `harvest/tasks.py`, class `RateLimiter`

The Redis sorted set behind `rate_limit:{domain}` stores members
`str(current_time)` with score `current_time` where `current_time =
int(time.time())`: the member string determines the score, so the set is
faithfully a finite set of integer timestamps (`Finset ℤ`), and `zadd` of an
already-present timestamp leaves the set unchanged, exactly as Redis replaces
the member.  `expire` only sets a TTL that is refreshed on each admission and
whose effect (dropping entries older than `window`) is subsumed by the purge
performed at the start of every call, so it is not modelled.  The
`limit = limit or self.default_limit` / `window = window or self.default_window`
resolution is the identity for the positive explicit arguments used here. -/

/-- `self.redis.zremrangebyscore(key, 0, window_start)` (`tasks.py` line 88):
removes every entry whose score lies in `[0, now - window]`, both ends
inclusive. -/
def zremrangebyscoreOld (s : Finset ℤ) (now : ℤ) (window : ℕ) : Finset ℤ :=
  s.filter (fun t => ¬(0 ≤ t ∧ t ≤ now - (window : ℤ)))

/-- `RateLimiter.is_allowed(domain, limit, window)` (`tasks.py` lines 68-99)
for one domain's set `s` at time `now`: purge old entries, count the remaining
entries (`zcard`), and admit — recording `now` — only if the count is below
`limit`.  Returns the decision and the updated set. -/
def is_allowed (s : Finset ℤ) (now : ℤ) (limit window : ℕ) : Bool × Finset ℤ :=
  if (zremrangebyscoreOld s now window).card < limit
  then (true, insert now (zremrangebyscoreOld s now window))
  else (false, zremrangebyscoreOld s now window)

/-- `RateLimiter.get_wait_time(domain, limit, window)` (`tasks.py` lines
101-118): the oldest entry with score in `[now - window, now]`
(`zrangebyscore ... start=0, num=1`), aged out at `oldest + window`; 0 when no
entry is in range.  The `limit` argument is accepted and unused, as in the
source. -/
def get_wait_time (s : Finset ℤ) (now : ℤ) (limit window : ℕ) : ℤ :=
  if h : (s.filter (fun t => now - (window : ℤ) ≤ t ∧ t ≤ now)).Nonempty
  then max 0 ((s.filter (fun t => now - (window : ℤ) ≤ t ∧ t ≤ now)).min' h
      + (window : ℤ) - now)
  else 0

/-- A sequence of `is_allowed` calls on one domain, at the given call times,
threading the Redis set through; returns the list of decisions and the final
set. -/
def runCalls : List ℤ → ℕ → ℕ → Finset ℤ → List Bool × Finset ℤ
  | [], _, _, s => ([], s)
  | t :: ts, limit, window, s =>
    let r := is_allowed s t limit window
    let rest := runCalls ts limit window r.2
    (r.1 :: rest.1, rest.2)

/-! ### Download task: `harvest/tasks.py`, `download_image_task` -/

/-- Python exceptions relevant to the task and proxy code: `TypeError`
(raised e.g. by hashing an unhashable object), `ValueError`, and any other
exception. -/
inductive PyExn where
  | typeError
  | valueError
  | otherExn
deriving DecidableEq

/-- `str(e)` for the modelled exceptions. -/
def pyExnMessage : PyExn → String
  | .typeError => "TypeError"
  | .valueError => "ValueError"
  | .otherExn => "Exception"

/-- The statuses a `download_and_store` result dictionary can carry
(`downloader.py`). -/
inductive DownloadStatus where
  | downloaded
  | duplicate
  | failed
deriving DecidableEq

/-- The result dictionary of `download_and_store` / `download_image_task`:
`{url, label, status, message, image_id}`. -/
structure DownloadResult where
  url : Option String
  label : Option String
  status : DownloadStatus
  message : String
  imageId : Option String
deriving DecidableEq

/-- The task payload fields `download_image_task` reads: `url`, `label`,
`domain` (`config` and `priority` do not affect the control flow modelled
here; `domain` only selects the rate-limit key, whose verdict is passed in as
`allowed`). -/
structure TaskData where
  url : Option String
  label : Option String
  domain : Option String
deriving DecidableEq

/-- Python truthiness of `not x` for an optional string: `None` and the empty
string are falsy. -/
def strFalsy : Option String → Bool
  | none => true
  | some s => decide (s = "")

/-- What one execution of the task body does: return a result dictionary,
raise `celery.Retry` via `self.retry(countdown=...)`, or raise an ordinary
exception. -/
inductive BodyOutcome where
  | ret (r : DownloadResult)
  | retryExn (countdown : ℚ)
  | raised (e : PyExn)
deriving DecidableEq

/-- The body of `download_image_task` (`tasks.py` lines 126-200) for one
execution.  `retries` is `self.request.retries`, `maxRetries` is
`self.max_retries` (3 from the decorator's `retry_kwargs`); `allowed` and
`waitTime` are the rate limiter's verdicts for the task's domain;
`jitterSleep` is the drawn pre-download jitter sleep (it does not affect the
outcome); `opResult` is the outcome of `download_and_store` (which by its own
source catches all exceptions and returns a `failed` dictionary, but the
body's `try/except` is modelled in full); `backoffRand` is the drawn
`random.uniform(0, 30)`. -/
def download_image_task_body (retries maxRetries : ℕ) (td : TaskData)
    (allowed : Bool) (waitTime : ℚ) (jitterSleep : ℚ)
    (opResult : Except PyExn DownloadResult) (backoffRand : ℚ) : BodyOutcome :=
  if strFalsy td.url || strFalsy td.label then .raised .valueError
  else if allowed = false then .retryExn waitTime
  else
    match opResult with
    | .ok result => .ret result
    | .error e =>
      if retries < maxRetries then
        .retryExn ((2 ^ retries : ℚ) * 60 + backoffRand)
      else
        .ret { url := td.url, label := td.label, status := .failed,
               message := "Max retries exceeded: " ++ pyExnMessage e,
               imageId := none }

/-- What the queue records for the task after one execution. -/
inductive CeleryOutcome where
  | completed (r : DownloadResult)
  | retryScheduled
  | failure (e : PyExn)
deriving DecidableEq

/-- Models the Celery decorator `@app.task(bind=True, autoretry_for=(Exception,),
retry_kwargs={'max_retries': 3, 'countdown': 60})` (`tasks.py` line 125)
around one body execution: a returned dictionary completes the task; a
`celery.Retry` raised by `self.retry` schedules a retry; any other exception
is auto-retried while `retries < max_retries` and otherwise fails the task
with that exception. -/
def celeryStep (retries maxRetries : ℕ) : BodyOutcome → CeleryOutcome
  | .ret r => .completed r
  | .retryExn _ => .retryScheduled
  | .raised e => if retries < maxRetries then .retryScheduled else .failure e

/-! ### Proxy pool: `harvest/proxy_manager.py`, class `ProxyManager`

`ProxyInfo` objects are mutable and compared by identity inside
`self.proxies` and `self.bad_proxies`; the embedding represents an object by
its index in the `proxies` list and mutation by `List.set` at that index.

A crucial accident of the source: `ProxyInfo` is declared with the plain
`@dataclass` decorator, which generates `__eq__` and therefore sets
`__hash__ = None`, making instances unhashable.  Python's `set.__contains__`,
`set.add` and `set.discard` hash their argument first — even on an empty set —
so every `p in self.bad_proxies` / `self.bad_proxies.add(p)` with a
`ProxyInfo` raises `TypeError`. -/

/-- `ProxyInfo` (`proxy_manager.py` lines 23-38). -/
structure ProxyInfo where
  host : String
  port : ℕ
  username : Option String := none
  password : Option String := none
  protocol : String := "http"
  country : Option String := none
  provider : Option String := none
  last_used : ℚ := 0
  success_count : ℕ := 0
  failure_count : ℕ := 0
  is_active : Bool := true
  last_checked : ℚ := 0
  response_time : ℚ := 0
deriving DecidableEq

instance : Inhabited ProxyInfo := ⟨{ host := "", port := 0 }⟩

/-- The rotation strategies of `get_proxy` (`proxy_manager.py` lines 109-116);
`otherStrategy` is any other configured string, handled by the final `else`. -/
inductive Strategy where
  | roundRobin
  | randomChoice
  | weighted
  | otherStrategy
deriving DecidableEq

/-- The `ProxyManager` state: the proxy list, the `bad_proxies` set (as the
set of pool indices it would hold), the round-robin cursor, and the
configuration fields the modelled methods read. -/
structure PMState where
  proxies : List ProxyInfo
  badProxies : Finset ℕ
  currentIndex : ℕ
  maxFailures : ℕ
  rotationStrategy : Strategy
deriving DecidableEq

/-- `proxy_info in self.bad_proxies` for the proxy with pool index `i`:
Python hashes the `ProxyInfo` first, and `ProxyInfo.__hash__` is `None`
(non-frozen `@dataclass` with generated `__eq__`), so the membership test
raises `TypeError` before consulting the set — even when the set is empty. -/
def badSetContains (bad : Finset ℕ) (i : ℕ) (p : ProxyInfo) :
    Except PyExn Bool :=
  .error .typeError

/-- `self.bad_proxies.add(proxy_info)`: hashes the unhashable `ProxyInfo`,
raising `TypeError` (see `badSetContains`). -/
def badSetAdd (bad : Finset ℕ) (i : ℕ) (p : ProxyInfo) :
    Except PyExn (Finset ℕ) :=
  .error .typeError

/-- A parsed proxy URL as `urlparse` exposes it in `_find_proxy_by_dict`:
`parsed.hostname` and `parsed.port`, either of which may be absent. -/
structure ProxyUrl where
  host : Option String
  port : Option ℕ
deriving DecidableEq

/-- A proxy dictionary `{'http': ..., 'https': ...}` as passed around the
manager, with each URL held in parsed form. -/
structure ProxyDict where
  http : Option ProxyUrl
  https : Option ProxyUrl
deriving DecidableEq

/-- `_proxy_to_dict(proxy)` (`proxy_manager.py` lines 155-168): both entries
point at `protocol://[auth@]host:port`, whose parsed hostname and port are the
proxy's own (credentials do not change `urlparse(...).hostname/.port`). -/
def proxy_to_dict (p : ProxyInfo) : ProxyDict :=
  { http := some ⟨some p.host, some p.port⟩,
    https := some ⟨some p.host, some p.port⟩ }

/-- `_find_proxy_by_dict(proxy_dict)` (`proxy_manager.py` lines 206-228):
take `proxy_dict.get('http') or proxy_dict.get('https')`, parse it, and return
the first pool entry whose `host` and `port` equal the parsed hostname and
port; `None` when the dictionary is empty, has no URL, or nothing matches.
Returns the matching pool index. -/
def find_proxy_by_dict (proxies : List ProxyInfo) (d : ProxyDict) : Option ℕ :=
  match d.http <|> d.https with
  | none => none
  | some u =>
    proxies.findIdx? (fun p => u.host = some p.host && u.port = some p.port)

/-- The list comprehension
`[p for p in self.proxies if p.is_active and p not in self.bad_proxies]`
(`proxy_manager.py` line 102) over the enumerated pool: `and` short-circuits,
so inactive proxies are skipped without hashing, while the membership test on
any active proxy raises `TypeError`. -/
def filterAvail : List (ℕ × ProxyInfo) → Finset ℕ → Except PyExn (List ℕ)
  | [], _ => pure []
  | (i, p) :: rest, bad =>
    if p.is_active then do
      let isBad ← badSetContains bad i p
      let tail ← filterAvail rest bad
      pure (if isBad then tail else i :: tail)
    else filterAvail rest bad

/-- `proxy_manager.py` lines 144-150: a proxy's weight is
`success/(success+failure)`, defaulting to `1.0` for an unused proxy. -/
def proxyWeight (p : ProxyInfo) : ℚ :=
  if p.success_count + p.failure_count = 0 then 1
  else (p.success_count : ℚ) / ((p.success_count : ℚ) + (p.failure_count : ℚ))

/-- `random.choices(population, weights)[0]` draws index `i` with probability
`weights[i] / sum(weights)`; this is the selection distribution of
`_get_weighted_proxy` over a pool (`proxy_manager.py` lines 137-153). -/
def selection_prob (pool : List ProxyInfo) (i : ℕ) : ℚ :=
  (pool.map proxyWeight).getD i 0 / (pool.map proxyWeight).sum

/-- The cumulative-weights bisection `random.choices` performs, with the
drawn `r ∈ [0, total)` passed explicitly: the first index whose cumulative
weight exceeds `r`. -/
def cumulativePick : List ℚ → ℚ → ℕ
  | [], _ => 0
  | w :: ws, r => if r < w then 0 else 1 + cumulativePick ws (r - w)

/-- `_get_round_robin_proxy(available_proxies)` (`proxy_manager.py` lines
127-131) over the available pool indices: select at
`current_index % len(available)` and advance the cursor modulo the same
length. -/
def get_round_robin_proxy (st : PMState) (avail : List ℕ) : ℕ × PMState :=
  (avail.getD (st.currentIndex % avail.length) 0,
   { st with currentIndex := (st.currentIndex + 1) % avail.length })

/-- `_get_weighted_proxy(available_proxies)` (`proxy_manager.py` lines
137-153) with the draw passed explicitly: weights as in `proxyWeight`, then a
`random.choices` pick. -/
def get_weighted_proxy (pool : List ProxyInfo) (avail : List ℕ) (r : ℚ) : ℕ :=
  let ws := avail.map (fun i => proxyWeight (pool.getD i default))
  avail.getD (cumulativePick ws r) 0

/-- `get_proxy()` (`proxy_manager.py` lines 90-125) with the wall clock and
the random draws passed explicitly: `None` on an empty pool; filter the
available proxies (which raises `TypeError` as soon as one active proxy is
hashed against `bad_proxies`); `None` when none qualify; otherwise select by
strategy, stamp `last_used`, and return the proxy dictionary. -/
def get_proxy (st : PMState) (now : ℚ) (rnd : ℕ) (r : ℚ) :
    Except PyExn (Option ProxyDict × PMState) :=
  if st.proxies.isEmpty then pure (none, st)
  else do
    let avail ← filterAvail st.proxies.enum st.badProxies
    if avail.isEmpty then pure (none, st)
    else
      let sel : ℕ × PMState :=
        match st.rotationStrategy with
        | .roundRobin => get_round_robin_proxy st avail
        | .randomChoice => (avail.getD (rnd % avail.length) 0, st)
        | .weighted => (get_weighted_proxy st.proxies avail r, st)
        | .otherStrategy => (avail.headD 0, st)
      let p := sel.2.proxies.getD sel.1 default
      let p1 := { p with last_used := now }
      let st2 := { sel.2 with proxies := sel.2.proxies.set sel.1 p1 }
      pure (some (proxy_to_dict p1), st2)

/-- `mark_bad(proxy)` (`proxy_manager.py` lines 170-191): find the pool
entry; if found, increment `failure_count`; on reaching `max_failures`,
deactivate it and add it to `bad_proxies` — the add raises `TypeError`
(unhashable `ProxyInfo`) after the in-place mutations have already happened.
Returns the state as mutated so far together with the exception, if any. -/
def mark_bad (st : PMState) (d : ProxyDict) : PMState × Option PyExn :=
  match find_proxy_by_dict st.proxies d with
  | none => (st, none)
  | some i =>
    let p := st.proxies.getD i default
    let p1 := { p with failure_count := p.failure_count + 1 }
    let st1 := { st with proxies := st.proxies.set i p1 }
    if st.maxFailures ≤ p1.failure_count then
      let p2 := { p1 with is_active := false }
      let st2 := { st1 with proxies := st1.proxies.set i p2 }
      match badSetAdd st2.badProxies i p2 with
      | .error ex => (st2, some ex)
      | .ok bad1 => ({ st2 with badProxies := bad1 }, none)
    else (st1, none)

/-- `mark_success(proxy)` (`proxy_manager.py` lines 193-204): find the pool
entry and, if found, increment its `success_count`; otherwise do nothing. -/
def mark_success (st : PMState) (d : ProxyDict) : PMState :=
  match find_proxy_by_dict st.proxies d with
  | none => st
  | some i =>
    let p := st.proxies.getD i default
    { st with proxies := st.proxies.set i { p with success_count := p.success_count + 1 } }

/-! ### Concrete scenarios used by the theorems below -/

/-- A fresh test proxy. -/
def mkProxy (h : String) (pt : ℕ) (s f : ℕ) : ProxyInfo :=
  { host := h, port := pt, success_count := s, failure_count := f }

/-- Weighted scenario of the spec: proxy A with 9 successes / 1 failure,
proxy B with 1 success / 9 failures, proxy C unused. -/
def poolABC : List ProxyInfo :=
  [mkProxy "a.example.com" 8080 9 1,
   mkProxy "b.example.com" 8081 1 9,
   mkProxy "c.example.com" 8082 0 0]

/-- A three-proxy round-robin pool, all active, none marked bad. -/
def stRR : PMState :=
  { proxies := [mkProxy "p1.example.com" 8080 0 0,
                mkProxy "p2.example.com" 8081 0 0,
                mkProxy "p3.example.com" 8082 0 0],
    badProxies := ∅, currentIndex := 0, maxFailures := 3,
    rotationStrategy := .roundRobin }

/-- A one-proxy pool with `max_failures = 1`, about to cross the threshold. -/
def stOne : PMState :=
  { proxies := [mkProxy "p.example.com" 3128 0 0],
    badProxies := ∅, currentIndex := 0, maxFailures := 1,
    rotationStrategy := .roundRobin }

/-- The proxy dictionary `get_proxy` would hand out for `stOne`'s proxy. -/
def dOne : ProxyDict := proxy_to_dict (mkProxy "p.example.com" 3128 0 0)

/-- A retry policy with jitter enabled whose exponential delay reaches the
`max_delay` cap at attempt 0. -/
def cfgJitterCap : RetryConfig :=
  { baseDelay := 1, maxDelay := 1, exponentialBase := 2, jitter := true }

/-- The default retry policy with jitter disabled. -/
def cfgNoJitter : RetryConfig := { jitter := false }

/-- A task payload with the required `url` field missing. -/
def tdNoUrl : TaskData := { url := none, label := some "cats", domain := none }

/-- A well-formed task payload. -/
def tdCats : TaskData :=
  { url := some "http://img.example.com/1.jpg", label := some "cats", domain := none }

/-- A `download_and_store` result reporting a permanent failure (e.g. a 4xx
page or malformed input surfaces as a `failed` dictionary, since
`download_and_store` catches every exception internally). -/
def failedResult : DownloadResult :=
  { url := some "http://img.example.com/1.jpg", label := some "cats",
    status := .failed, message := "Invalid content type: text/html",
    imageId := none }

/-! ## Helper lemmas -/

theorem mem_zrem {s : Finset ℤ} {now : ℤ} {w : ℕ} {x : ℤ} :
    x ∈ zremrangebyscoreOld s now w ↔ x ∈ s ∧ ¬(0 ≤ x ∧ x ≤ now - (w : ℤ)) := by
  simp [zremrangebyscoreOld]

theorem zrem_subset (s : Finset ℤ) (now : ℤ) (w : ℕ) :
    zremrangebyscoreOld s now w ⊆ s :=
  Finset.filter_subset _ _

theorem is_allowed_snd_subset (s : Finset ℤ) (now : ℤ) (l w : ℕ) :
    (is_allowed s now l w).2 ⊆ insert now s := by
  unfold is_allowed
  split_ifs with h
  · exact Finset.insert_subset_insert now (zrem_subset s now w)
  · exact (zrem_subset s now w).trans (Finset.subset_insert now s)

theorem mem_is_allowed_snd {s : Finset ℤ} {now : ℤ} {l w : ℕ} {x : ℤ}
    (hx : x ∈ s) (h0 : 0 ≤ x) (hwin : now - (w : ℤ) < x) :
    x ∈ (is_allowed s now l w).2 := by
  have hx1 : x ∈ zremrangebyscoreOld s now w := mem_zrem.mpr ⟨hx, by omega⟩
  unfold is_allowed
  split_ifs with h
  · exact Finset.mem_insert_of_mem hx1
  · exact hx1

theorem runCalls_subset :
    ∀ (ts : List ℤ) (l w : ℕ) (s : Finset ℤ),
      (runCalls ts l w s).2 ⊆ s ∪ ts.toFinset := by
  intro ts
  induction ts with
  | nil =>
    intro l w s
    simp [runCalls]
  | cons t rest ih =>
    intro l w s
    have h1 := ih l w (is_allowed s t l w).2
    have h2 := is_allowed_snd_subset s t l w
    intro x hx
    have hx1 : x ∈ (is_allowed s t l w).2 ∪ rest.toFinset := h1 hx
    rcases Finset.mem_union.mp hx1 with hx2 | hx2
    · rcases Finset.mem_insert.mp (h2 hx2) with hx3 | hx3
      · subst hx3
        exact Finset.mem_union_right s (by simp)
      · exact Finset.mem_union_left _ hx3
    · exact Finset.mem_union_right s (by simp [hx2])

theorem runCalls_preserve (l w : ℕ) (nowF : ℤ) :
    ∀ (ts : List ℤ) (s : Finset ℤ) (x : ℤ),
      x ∈ s → 0 ≤ x → nowF - (w : ℤ) < x → (∀ u ∈ ts, u ≤ nowF) →
      x ∈ (runCalls ts l w s).2 := by
  intro ts
  induction ts with
  | nil =>
    intro s x hx _ _ _
    exact hx
  | cons t rest ih =>
    intro s x hx h0 hwin hts
    have ht : t ≤ nowF := hts t (List.mem_cons_self t rest)
    have hx1 : x ∈ (is_allowed s t l w).2 := mem_is_allowed_snd hx h0 (by omega)
    exact ih (is_allowed s t l w).2 x hx1 h0 hwin
      (fun u hu => hts u (List.mem_cons_of_mem t hu))

theorem runCalls_admitted_mem (l w : ℕ) (nowF : ℤ) :
    ∀ (ts : List ℤ) (s : Finset ℤ),
      (∀ b ∈ (runCalls ts l w s).1, b = true) →
      (∀ u ∈ ts, 0 ≤ u ∧ nowF - (w : ℤ) < u ∧ u ≤ nowF) →
      ∀ x ∈ ts, x ∈ (runCalls ts l w s).2 := by
  intro ts
  induction ts with
  | nil =>
    intro s _ _ x hx
    simp at hx
  | cons t rest ih =>
    intro s hadm hin x hx
    have hb : (is_allowed s t l w).1 = true :=
      hadm (is_allowed s t l w).1 (List.mem_cons_self _ _)
    have htmem : t ∈ (is_allowed s t l w).2 := by
      unfold is_allowed at hb ⊢
      split_ifs at hb ⊢ with h
      exact Finset.mem_insert_self _ _
    rcases List.mem_cons.mp hx with rfl | hxr
    · obtain ⟨h0, hwin, _⟩ := hin x (List.mem_cons_self x rest)
      exact runCalls_preserve l w nowF rest (is_allowed s x l w).2 x htmem h0 hwin
        (fun u hu => (hin u (List.mem_cons_of_mem x hu)).2.2)
    · exact ih (is_allowed s t l w).2
        (fun b hb' => hadm b (List.mem_cons_of_mem _ hb'))
        (fun u hu => hin u (List.mem_cons_of_mem t hu)) x hxr

theorem retryAux_step {E A : Type} (f : ℕ → Except E A) (p : E → Bool)
    (left a s : ℕ) (e : E) (hf : f a = .error e) (hp : p e = true) :
    retryAux f p (left + 1) a s = retryAux f p left (a + 1) (s + 1) := by
  conv_lhs => rw [retryAux]
  simp [hf, hp]

theorem retryAux_stop {E A : Type} (f : ℕ → Except E A) (p : E → Bool)
    (left a s : ℕ) (e : E) (hf : f a = .error e)
    (hstop : left = 0 ∨ p e = false) :
    retryAux f p left a s = ⟨.error e, a + 1, s⟩ := by
  rcases hstop with h | h
  · subst h
    rw [retryAux]
    simp [hf]
  · cases left with
    | zero =>
      rw [retryAux]
      simp [hf]
    | succ l =>
      rw [retryAux]
      simp [hf, h]

theorem retry_reach {E A : Type} (f : ℕ → Except E A) (p : E → Bool)
    (maxR : ℕ) :
    ∀ i : ℕ, i ≤ maxR →
      (∀ k, k < i → ∃ ek, f k = .error ek ∧ p ek = true) →
      retryAux f p maxR 0 0 = retryAux f p (maxR - i) i i := by
  intro i
  induction i with
  | zero =>
    intro _ _
    simp
  | succ i ih =>
    intro hle hpre
    have h1 : i ≤ maxR := Nat.le_of_succ_le hle
    have h2 := ih h1 (fun k hk => hpre k (Nat.lt_succ_of_lt hk))
    obtain ⟨e, hf, hp⟩ := hpre i (Nat.lt_succ_self i)
    have h3 : maxR - i = (maxR - (i + 1)) + 1 := by omega
    rw [h2, h3, retryAux_step f p (maxR - (i + 1)) i i e hf hp]

theorem retryAux_error_char {E A : Type} (f : ℕ → Except E A) (p : E → Bool) :
    ∀ (left a s : ℕ) (e : E) (n m : ℕ),
      retryAux f p left a s = ⟨.error e, n, m⟩ →
      ∃ i, a ≤ i ∧ i ≤ a + left ∧ f i = .error e ∧ n = i + 1 ∧ m = s + (i - a) ∧
        (∀ k, a ≤ k → k < i → ∃ ek, f k = .error ek ∧ p ek = true) ∧
        (i = a + left ∨ p e = false) := by
  intro left
  induction left with
  | zero =>
    intro a s e n m h
    rw [retryAux] at h
    cases hfa : f a with
    | ok x =>
      rw [hfa] at h
      simp at h
    | error e1 =>
      rw [hfa] at h
      simp only [RunResult.mk.injEq, Except.error.injEq] at h
      obtain ⟨he, hn, hm⟩ := h
      refine ⟨a, le_rfl, by omega, by rw [hfa, he], by omega, by omega, ?_, ?_⟩
      · intro k hk1 hk2
        omega
      · exact Or.inl (by omega)
  | succ l ih =>
    intro a s e n m h
    rw [retryAux] at h
    cases hfa : f a with
    | ok x =>
      rw [hfa] at h
      simp at h
    | error e1 =>
      rw [hfa] at h
      by_cases hpe : p e1 = true
      · simp only [hpe, if_true] at h
        obtain ⟨i, hai, hile, hfi, hn, hm, hpre, hlast⟩ :=
          ih (a + 1) (s + 1) e n m h
        refine ⟨i, by omega, by omega, hfi, hn, by omega, ?_, ?_⟩
        · intro k hk1 hk2
          rcases Nat.eq_or_lt_of_le hk1 with rfl | hk3
          · exact ⟨e1, hfa, hpe⟩
          · exact hpre k hk3 hk2
        · rcases hlast with h1 | h1
          · exact Or.inl (by omega)
          · exact Or.inr h1
      · have hpe1 : p e1 = false := by
          simpa using hpe
        simp only [hpe1, Bool.false_eq_true, if_false, RunResult.mk.injEq,
          Except.error.injEq] at h
        obtain ⟨he, hn, hm⟩ := h
        refine ⟨a, le_rfl, by omega, by rw [hfa, he], by omega, by omega, ?_, ?_⟩
        · intro k hk1 hk2
          omega
        · exact Or.inr (he ▸ hpe1)

/-! ## Claim theorems -/

/-- Claim C1, counterexample: with `limit = 2`, `window = 5`, two calls at the
same integer second (time 0) are both admitted — Redis keys the entry by
`str(current_time)`, so the second admission overwrites the first — and the
very next `is_allowed` call at time 0, made while both admissions are inside
the window, is *admitted* again instead of denied. -/
theorem rate_limiter_same_second_counterexample :
    (runCalls [0, 0] 2 5 ∅).1 = [true, true] ∧
    (is_allowed (runCalls [0, 0] 2 5 ∅).2 0 2 5).1 = true := by
  constructor
  · rfl
  · rfl

/-- Claim C1, amended: once `limit` calls have been admitted *at pairwise
distinct integer timestamps* (starting from an empty window), a further
`is_allowed` call made while all those admissions are still strictly inside
the window is denied, and `get_wait_time` then returns a strictly positive
wait. -/
theorem rate_limiter_denies_after_distinct_admissions
    (ts : List ℤ) (limit window : ℕ) (now : ℤ)
    (hlim : 1 ≤ limit) (hnd : ts.Nodup) (hlen : ts.length = limit)
    (hin : ∀ u ∈ ts, 0 ≤ u ∧ now - (window : ℤ) < u ∧ u ≤ now)
    (hadm : ∀ b ∈ (runCalls ts limit window ∅).1, b = true) :
    (is_allowed (runCalls ts limit window ∅).2 now limit window).1 = false ∧
    0 < get_wait_time (is_allowed (runCalls ts limit window ∅).2 now limit window).2
        now limit window := by
  have hmem : ∀ x ∈ ts, x ∈ (runCalls ts limit window ∅).2 :=
    runCalls_admitted_mem limit window now ts ∅ hadm hin
  have hsub : (runCalls ts limit window ∅).2 ⊆ ts.toFinset := by
    have h := runCalls_subset ts limit window ∅
    simpa using h
  have hpmem : ∀ x ∈ ts,
      x ∈ zremrangebyscoreOld (runCalls ts limit window ∅).2 now window := by
    intro x hx
    obtain ⟨h0, hwin, hle⟩ := hin x hx
    exact mem_zrem.mpr ⟨hmem x hx, by omega⟩
  have htsub : ts.toFinset ⊆
      zremrangebyscoreOld (runCalls ts limit window ∅).2 now window := by
    intro x hx
    exact hpmem x (List.mem_toFinset.mp hx)
  have hcard : limit ≤
      (zremrangebyscoreOld (runCalls ts limit window ∅).2 now window).card := by
    calc limit = ts.length := hlen.symm
    _ = ts.toFinset.card := (List.toFinset_card_of_nodup hnd).symm
    _ ≤ _ := Finset.card_le_card htsub
  have hfalse : is_allowed (runCalls ts limit window ∅).2 now limit window =
      (false, zremrangebyscoreOld (runCalls ts limit window ∅).2 now window) := by
    unfold is_allowed
    rw [if_neg (by omega)]
  have hPsub : ∀ x ∈ zremrangebyscoreOld (runCalls ts limit window ∅).2 now window,
      x ∈ ts := by
    intro x hxP
    exact List.mem_toFinset.mp (hsub (mem_zrem.mp hxP).1)
  have hFne : ((zremrangebyscoreOld (runCalls ts limit window ∅).2 now window).filter
      (fun t => now - (window : ℤ) ≤ t ∧ t ≤ now)).Nonempty := by
    have hne : ts ≠ [] := by
      intro h
      rw [h] at hlen
      simp at hlen
      omega
    obtain ⟨t0, ht0⟩ := List.exists_mem_of_ne_nil ts hne
    obtain ⟨h0, hwin, hle⟩ := hin t0 ht0
    exact ⟨t0, Finset.mem_filter.mpr ⟨hpmem t0 ht0, by omega, hle⟩⟩
  have hsnd : (is_allowed (runCalls ts limit window ∅).2 now limit window).2 =
      zremrangebyscoreOld (runCalls ts limit window ∅).2 now window := by
    rw [hfalse]
  refine ⟨by rw [hfalse], ?_⟩
  rw [hsnd]
  unfold get_wait_time
  rw [dif_pos hFne]
  have hminmem := Finset.min'_mem _ hFne
  have hmints : _ ∈ ts := hPsub _ (Finset.mem_filter.mp hminmem).1
  obtain ⟨h0, hwin, hle⟩ := hin _ hmints
  have hpos : 0 < (((zremrangebyscoreOld (runCalls ts limit window ∅).2 now window).filter
      (fun t => now - (window : ℤ) ≤ t ∧ t ≤ now)).min' hFne) + (window : ℤ) - now := by
    omega
  exact lt_max_of_lt_right hpos

/-- Witness for the amended claim C1: `limit = 2`, `window = 5`, admissions at
times 3 and 4, then a call at time 6 is denied with a positive wait time. -/
theorem rate_limiter_denies_witness :
    (is_allowed (runCalls [3, 4] 2 5 ∅).2 6 2 5).1 = false ∧
    0 < get_wait_time (is_allowed (runCalls [3, 4] 2 5 ∅).2 6 2 5).2 6 2 5 :=
  rate_limiter_denies_after_distinct_admissions [3, 4] 2 5 6 (by norm_num)
    (by decide) (by decide) (by decide) (by decide)

/-- Claim C2, counterexample: under the default `RetryConfig`, a 404
`HTTPStatusError` — which is neither a timeout, nor a connection failure, nor
a 5xx-equivalent status, nor a rate-limited (429) signal — is classified as
retryable, because the default `retryable_exceptions` tuple contains
`httpx.HTTPStatusError` itself, making the 5xx-specific check unreachable. -/
theorem is_retryable_error_404_counterexample :
    is_retryable_error (.statusError 404) defaultRetryConfig = true ∧
    claimRetryableSpec (.statusError 404) = false := by
  constructor
  · rfl
  · rfl

/-- Claim C2, amended: under the default configuration a failure is
classified retryable iff it is a timeout, a connection/network failure, or an
`HTTPStatusError` of *any* status (including 4xx; 429 in particular); and a
failure classified non-retryable is propagated immediately: if the attempts
before index `i` failed retryably and attempt `i` fails with a non-retryable
error inside the budget, the loop raises exactly that error after `i + 1`
attempts and `i` backoff sleeps — no sleep and no further attempt follow the
permanent failure. -/
theorem is_retryable_classification_and_permanent_propagation :
    (∀ e : HttpxError, is_retryable_error e defaultRetryConfig = true ↔
        (e = .timeout ∨ e = .connectErr ∨ e = .networkErr ∨
          ∃ s, e = .statusError s))
    ∧ ∀ (A : Type) (f : ℕ → Except HttpxError A) (config : RetryConfig)
        (i : ℕ) (e : HttpxError),
        i ≤ config.maxRetries →
        (∀ k, k < i → ∃ ek, f k = .error ek ∧ is_retryable_error ek config = true) →
        f i = .error e → is_retryable_error e config = false →
        retry_with_backoff f config = ⟨.error e, i + 1, i⟩ := by
  constructor
  · intro e
    cases e with
    | timeout => simp [is_retryable_error, defaultRetryConfig,
        defaultRetryableExceptions, isinstanceOf]
    | connectErr => simp [is_retryable_error, defaultRetryConfig,
        defaultRetryableExceptions, isinstanceOf]
    | networkErr => simp [is_retryable_error, defaultRetryConfig,
        defaultRetryableExceptions, isinstanceOf]
    | statusError s =>
      constructor
      · intro _
        exact Or.inr (Or.inr (Or.inr ⟨s, rfl⟩))
      · intro _
        rfl
    | otherError => simp [is_retryable_error, defaultRetryConfig,
        defaultRetryableExceptions, isinstanceOf]
  · intro A f config i e hi hpre hfi hperm
    unfold retry_with_backoff
    rw [retry_reach f (fun e => is_retryable_error e config) config.maxRetries i hi hpre]
    exact retryAux_stop f _ (config.maxRetries - i) i i e hfi (Or.inr hperm)

/-- Witness for the amended claim C2: a timeout is retryable, and a function
that immediately fails with an unclassified exception is raised after exactly
one attempt and zero sleeps. -/
theorem is_retryable_classification_witness :
    is_retryable_error .timeout defaultRetryConfig = true ∧
    retry_with_backoff (fun _ => (.error .otherError : Except HttpxError ℕ))
      defaultRetryConfig = ⟨.error .otherError, 1, 0⟩ :=
  ⟨(is_retryable_classification_and_permanent_propagation.1 .timeout).mpr
      (Or.inl rfl),
    is_retryable_classification_and_permanent_propagation.2 ℕ
      (fun _ => .error .otherError) defaultRetryConfig 0 .otherError
      (Nat.zero_le _) (fun k hk => absurd hk (Nat.not_lt_zero k)) rfl rfl⟩

/-- Claim C3, counterexample: with jitter enabled, a policy whose exponential
delay reaches the `max_delay` cap admits jitter outcomes under which
`calculate_delay` exceeds `max_delay` (the cap is applied *before* the jitter
is added) and is not non-decreasing in the attempt index. -/
theorem calculate_delay_jitter_counterexample :
    jitterOutcome 0 cfgJitterCap (1 / 10) ∧
    jitterOutcome 1 cfgJitterCap (-(1 / 10)) ∧
    cfgJitterCap.maxDelay < calculate_delay 0 cfgJitterCap (1 / 10) ∧
    calculate_delay 1 cfgJitterCap (-(1 / 10)) <
      calculate_delay 0 cfgJitterCap (1 / 10) := by
  refine ⟨?_, ?_, ?_, ?_⟩ <;>
    norm_num [jitterOutcome, rawDelay, calculate_delay, cfgJitterCap, abs_le]

/-- Claim C3, amended: for every policy with jitter *disabled*, non-negative
`base_delay` and `max_delay` and a backoff multiplier of at least 1,
`calculate_delay` is non-decreasing in the attempt index and never exceeds
`max_delay`. -/
theorem calculate_delay_monotone_bounded (config : RetryConfig)
    (hjit : config.jitter = false) (hb : 0 ≤ config.baseDelay)
    (he : 1 ≤ config.exponentialBase) (hm : 0 ≤ config.maxDelay)
    (m n : ℕ) (hmn : m ≤ n) (j j' : ℚ) :
    calculate_delay m config j ≤ calculate_delay n config j' ∧
    calculate_delay n config j' ≤ config.maxDelay := by
  have hpow : config.exponentialBase ^ m ≤ config.exponentialBase ^ n :=
    pow_le_pow_right₀ he hmn
  have hmul : config.baseDelay * config.exponentialBase ^ m ≤
      config.baseDelay * config.exponentialBase ^ n :=
    mul_le_mul_of_nonneg_left hpow hb
  constructor
  · simp only [calculate_delay, hjit, Bool.false_eq_true, if_false, rawDelay]
    exact max_le_max le_rfl (min_le_min hmul le_rfl)
  · simp only [calculate_delay, hjit, Bool.false_eq_true, if_false, rawDelay]
    exact max_le hm (min_le_right _ _)

/-- Witness for the amended claim C3 at the default policy with jitter off. -/
theorem calculate_delay_monotone_bounded_witness :
    calculate_delay 1 cfgNoJitter 0 ≤ calculate_delay 2 cfgNoJitter 0 ∧
    calculate_delay 2 cfgNoJitter 0 ≤ cfgNoJitter.maxDelay :=
  calculate_delay_monotone_bounded cfgNoJitter rfl (by norm_num [cfgNoJitter])
    (by norm_num [cfgNoJitter]) (by norm_num [cfgNoJitter]) 1 2 (by norm_num) 0 0

/-- Claim C4 (code bug): when `mark_bad` drives a proxy's `failure_count` up
to `max_failures`, the source sets `is_active = False` and then executes
`self.bad_proxies.add(proxy_info)`, which raises `TypeError` — `ProxyInfo` is
a non-frozen `@dataclass`, hence unhashable — so the call blows up instead of
completing the deactivate-and-exclude transition; the bad set stays empty. -/
theorem mark_bad_threshold_raises :
    (mark_bad stOne dOne).2 = some .typeError ∧
    ((mark_bad stOne dOne).1.proxies.getD 0 default).is_active = false ∧
    (mark_bad stOne dOne).1.badProxies = ∅ := by
  refine ⟨rfl, rfl, rfl⟩

/-- Claim C5, counterexample: a task payload violating the policy "URL and
label are required" raises `ValueError`, and the decorator
`autoretry_for=(Exception,)` turns that into a *scheduled retry* on the first
attempt (`retries = 0 < max_retries = 3`) — the item does not reach a
terminal failure with `attempt_count = 1`. -/
theorem download_task_policy_violation_retried :
    celeryStep 0 3
      (download_image_task_body 0 3 tdNoUrl true 0 1 (.ok failedResult) 0) =
      .retryScheduled := by
  rfl

/-- Claim C5, amended: a permanent failure surfaced by `download_and_store`
as a result dictionary with status `failed` terminates the task on the first
attempt with that result and no retry; but a payload with a missing required
field raises `ValueError`, which the task's `autoretry_for=(Exception,)`
configuration schedules for retry instead of failing terminally on attempt
one. -/
theorem download_task_failed_result_terminal :
    (∀ (td : TaskData) (u l : String) (w j b : ℚ) (r : DownloadResult),
        td.url = some u → u ≠ "" → td.label = some l → l ≠ "" →
        r.status = .failed →
        celeryStep 0 3 (download_image_task_body 0 3 td true w j (.ok r) b) =
          .completed r)
    ∧ (∀ (td : TaskData) (w j b : ℚ) (op : Except PyExn DownloadResult),
        td.url = none →
        celeryStep 0 3 (download_image_task_body 0 3 td true w j op b) =
          .retryScheduled) := by
  constructor
  · intro td u l w j b r hu hune hl hlne _
    simp [download_image_task_body, strFalsy, hu, hl, hune, hlne, celeryStep]
  · intro td w j b op h
    simp [download_image_task_body, strFalsy, h, celeryStep]

/-- Witness for the amended claim C5: a concrete failed download result
completes terminally on attempt one, and a concrete payload without a URL is
scheduled for retry. -/
theorem download_task_failed_result_terminal_witness :
    celeryStep 0 3
      (download_image_task_body 0 3 tdCats true 0 1 (.ok failedResult) 0) =
      .completed failedResult ∧
    celeryStep 0 3
      (download_image_task_body 0 3 tdNoUrl true 1 1 (.error .otherExn) 0) =
      .retryScheduled :=
  ⟨download_task_failed_result_terminal.1 tdCats "http://img.example.com/1.jpg"
      "cats" 0 1 0 failedResult rfl (by decide) rfl (by decide) rfl,
    download_task_failed_result_terminal.2 tdNoUrl 1 1 0 (.error .otherExn) rfl⟩

/-- Claim C6, counterexample: in the spec's weighted scenario (A: 9/1, B: 1/9,
C unused) the selection probability of A (0.9/2) is *not* greater than that
of C (1.0/2): the untested proxy's default weight 1.0 beats A's 0.9. -/
theorem weighted_scenario_counterexample :
    ¬(selection_prob poolABC 0 > selection_prob poolABC 2) := by
  norm_num [selection_prob, poolABC, proxyWeight, mkProxy]

/-- Claim C6, amended: over many weighted draws the expected frequencies obey
`frequency(C) > frequency(A) > frequency(B)` — the unused proxy C, with
default weight 1.0, is the most likely pick, ahead of A (weight 0.9) and B
(weight 0.1). -/
theorem weighted_scenario_order :
    selection_prob poolABC 2 > selection_prob poolABC 0 ∧
    selection_prob poolABC 0 > selection_prob poolABC 1 := by
  constructor <;> norm_num [selection_prob, poolABC, proxyWeight, mkProxy]

/-- Claim C7 (code bug): `get_proxy` on any pool containing an active proxy
raises `TypeError` at the availability filter — `p not in self.bad_proxies`
hashes the unhashable `ProxyInfo` — so N consecutive calls on an N-proxy
round-robin pool cannot return each proxy once; they all raise. -/
theorem get_proxy_raises_on_active_pool :
    get_proxy stRR 0 0 0 = .error .typeError := by
  rfl

/-- Claim C8 (confirmed): the retry loop raises only on policy exhaustion
(all `max_retries + 1` attempts failed, the earlier ones retryably) or on a
non-retryable error; on exhaustion the raised error is the error of the last
attempt and the reported attempt count is `max_retries + 1`. -/
theorem retry_raises_only_on_exhaustion_or_permanent {A : Type}
    (f : ℕ → Except HttpxError A) (config : RetryConfig) (e : HttpxError)
    (h : (retry_with_backoff f config).result = .error e) :
    ((∀ k, k < config.maxRetries →
        ∃ ek, f k = .error ek ∧ is_retryable_error ek config = true) ∧
      f config.maxRetries = .error e ∧
      (retry_with_backoff f config).attempts = config.maxRetries + 1)
    ∨ (∃ i, i ≤ config.maxRetries ∧ f i = .error e ∧
        is_retryable_error e config = false ∧
        (retry_with_backoff f config).attempts = i + 1) := by
  rcases hx : retry_with_backoff f config with ⟨res, n, m⟩
  rw [hx] at h
  simp only at h
  subst h
  have hx1 : retryAux f (fun e => is_retryable_error e config)
      config.maxRetries 0 0 = ⟨.error e, n, m⟩ := hx
  obtain ⟨i, _, hile, hfi, hn, hm, hpre, hlast⟩ :=
    retryAux_error_char f (fun e => is_retryable_error e config)
      config.maxRetries 0 0 e n m hx1
  rcases hlast with hiM | hpf
  · left
    have hiM1 : i = config.maxRetries := by omega
    subst hiM1
    exact ⟨fun k hk => hpre k (Nat.zero_le k) hk, hfi, hn⟩
  · right
    exact ⟨i, by omega, hfi, hpf, hn⟩

/-- Witness for claim C8: a function that always fails with an unclassified
exception is raised after one attempt under the default policy. -/
theorem retry_raises_witness :
    ((∀ k, k < defaultRetryConfig.maxRetries →
        ∃ ek, (fun _ => (.error .otherError : Except HttpxError ℕ)) k = .error ek ∧
          is_retryable_error ek defaultRetryConfig = true) ∧
      (fun _ => (.error .otherError : Except HttpxError ℕ))
        defaultRetryConfig.maxRetries = .error .otherError ∧
      (retry_with_backoff (fun _ => (.error .otherError : Except HttpxError ℕ))
        defaultRetryConfig).attempts = defaultRetryConfig.maxRetries + 1)
    ∨ (∃ i, i ≤ defaultRetryConfig.maxRetries ∧
        (fun _ => (.error .otherError : Except HttpxError ℕ)) i = .error .otherError ∧
        is_retryable_error .otherError defaultRetryConfig = false ∧
        (retry_with_backoff (fun _ => (.error .otherError : Except HttpxError ℕ))
          defaultRetryConfig).attempts = i + 1) :=
  retry_raises_only_on_exhaustion_or_permanent
    (fun _ => .error .otherError) defaultRetryConfig .otherError rfl

/-- Claim C9 (confirmed): `calculate_delay` returns `max(0, delay)`, so for
every configuration, attempt index and jitter outcome the delay handed to the
backoff sleep is non-negative. -/
theorem calculate_delay_nonneg (attempt : ℕ) (config : RetryConfig) (j : ℚ) :
    0 ≤ calculate_delay attempt config j :=
  le_max_left 0 _

/-- Claim C10 (confirmed): `mark_bad` and `mark_success` called with a proxy
dictionary that is empty, has no http/https URL, or matches no pool record
leave the manager state — every counter, every `is_active` flag and the bad
set — completely unchanged, and raise nothing. -/
theorem mark_unknown_proxy_is_noop (st : PMState) (d : ProxyDict)
    (h : (d.http = none ∧ d.https = none) ∨
      find_proxy_by_dict st.proxies d = none) :
    mark_bad st d = (st, none) ∧ mark_success st d = st := by
  have hf : find_proxy_by_dict st.proxies d = none := by
    rcases h with ⟨h1, h2⟩ | hf
    · simp [find_proxy_by_dict, h1, h2]
    · exact hf
  constructor
  · simp [mark_bad, hf]
  · simp [mark_success, hf]

/-- Witness for claim C10: the empty proxy dictionary changes nothing. -/
theorem mark_unknown_proxy_is_noop_witness :
    mark_bad stOne ⟨none, none⟩ = (stOne, none) ∧
    mark_success stOne ⟨none, none⟩ = stOne :=
  mark_unknown_proxy_is_noop stOne ⟨none, none⟩ (Or.inl ⟨rfl, rfl⟩)

end PixVault
